import Mathlib

set_option maxHeartbeats 1000000

namespace RustChat

/-! Shallow embedding of the chat orchestration and streaming pipeline of the
repository: `src/service/chat_service.rs`, `src/routes/ws_routes.rs`,
`src/routes/api_routes.rs`, `src/agent/mod.rs`, `src/errors.rs`,
`src/models.rs` and the two repositories under `src/db/`.

Rust strings are Lean `String`s; `byteLen` models `str::len` (the UTF-8 byte
count), `charLen` models `str::chars().count()`, and `rustTrim` models
`str::trim` (whitespace as recognised by `Char.isWhitespace`, which agrees
with Rust's `char::is_whitespace` on the ASCII range used here).

Database state is a `Store` holding the conversation and message tables in
persistence order; each repository call that can fail at the database level
is driven by an injected success flag in `DbEnv`, mirroring the `Result`
returned by `sqlx`.  Fresh UUIDs (`Uuid::new_v4`) and clock reads
(`Utc::now`) are supplied as explicit parameters. -/

def charLen (s : String) : Nat := s.data.length

def byteLen (s : String) : Nat := (s.data.map Char.utf8Size).sum

def isWsChar (c : Char) : Bool := c.isWhitespace

def rustTrim (s : String) : String :=
  ⟨((s.data.dropWhile isWsChar).reverse.dropWhile isWsChar).reverse⟩

/-- `MessageRole` from `src/models.rs`. -/
inductive MessageRole
  | user
  | assistant
  | system
deriving DecidableEq

/-- `Message` from `src/models.rs`; `created_at` is an abstract timestamp. -/
structure Message where
  id : String
  conversation_id : String
  role : MessageRole
  content : String
  created_at : Nat
deriving DecidableEq

/-- `Conversation` from `src/models.rs`. -/
structure Conversation where
  id : String
  title : String
  created_at : Nat
  updated_at : Nat
deriving DecidableEq

/-- `ChatRequest` from `src/models.rs`. -/
structure ChatRequest where
  conversation_id : Option String
  message : String
deriving DecidableEq

/-- `ChatContext` as constructed by `ChatService::prepare_chat` and consumed
by the REST and WebSocket handlers (fields exactly as used at those sites). -/
structure ChatContext where
  conversation_id : String
  history : List Message
  user_message : String
deriving DecidableEq

/-- `ChatResponse` from `src/models.rs`. -/
structure ChatResponse where
  conversation_id : String
  message : Message
deriving DecidableEq

/-- `AppError` from `src/errors.rs`; `sqlx` error sources are reduced to
their display text. -/
inductive AppError
  | DatabaseConnectionFailed (message : String)
  | DatabaseQueryFailed (message : String)
  | RecordNotFound (entity_type : String) (id : String)
  | OllamaUnavailable (host : String)
  | ModelNotFound (model_name : String)
  | InferenceError (message : String)
  | EmptyField (field_name : String)
  | FieldTooLong (field_name : String) (max_length : Nat) (actual_length : Nat)
  | ConversationNotFound (id : String)
  | Unexpected (message : String)
deriving DecidableEq

/-- `AppError::is_not_found`. -/
def AppError.is_not_found : AppError → Bool
  | .ConversationNotFound _ => true
  | .RecordNotFound _ _ => true
  | _ => false

/-- `AppError::is_validation`. -/
def AppError.is_validation : AppError → Bool
  | .EmptyField _ => true
  | .FieldTooLong _ _ _ => true
  | _ => false

/-- `AppError::is_agent_unavailable`. -/
def AppError.is_agent_unavailable : AppError → Bool
  | .OllamaUnavailable _ => true
  | _ => false

/-- The `thiserror` display strings of `AppError` (`e.to_string()`). -/
def AppError.display : AppError → String
  | .DatabaseConnectionFailed m => "Database connection failed: " ++ m
  | .DatabaseQueryFailed m => "Database query failed: " ++ m
  | .RecordNotFound t i => "Record not found: " ++ t ++ " with id '" ++ i ++ "'"
  | .OllamaUnavailable h => "Ollama service unavailable at " ++ h
  | .ModelNotFound m => "Model '" ++ m ++ "' not found in Ollama"
  | .InferenceError m => "Inference error: " ++ m
  | .EmptyField f => "Field '" ++ f ++ "' cannot be empty"
  | .FieldTooLong f mx ac =>
      "Field '" ++ f ++ "' exceeds max length of " ++ toString mx ++
        " (actual: " ++ toString ac ++ ")"
  | .ConversationNotFound i => "Conversation '" ++ i ++ "' not found"
  | .Unexpected m => "Unexpected error: " ++ m

/-- `error_response` from `src/routes/api_routes.rs`, reduced to the HTTP
status code it chooses. -/
def error_response (err : AppError) : Nat :=
  if err.is_validation then 400
  else if err.is_not_found then 404
  else if err.is_agent_unavailable then 503
  else 500

/-- The database state: both tables in persistence order.  Messages carry
monotone `created_at` stamps in the scenarios modelled here, so persistence
order coincides with the `ORDER BY created_at ASC` order of
`MessageRepository::find_by_conversation_id`. -/
structure Store where
  conversations : List Conversation
  messages : List Message
deriving DecidableEq

/-- Injected success/failure of each fallible repository call. -/
structure DbEnv where
  findConvOk : Bool
  saveConvOk : Bool
  saveMsgOk : Bool
  findMsgsOk : Bool
  touchOk : Bool

def okEnv : DbEnv := ⟨true, true, true, true, true⟩

/-- `ConversationRepository::find_by_id` (success case). -/
def findConversation (st : Store) (id : String) : Option Conversation :=
  st.conversations.find? (fun c => c.id == id)

/-- `ConversationRepository::save` (success case). -/
def saveConversation (st : Store) (c : Conversation) : Store :=
  { st with conversations := st.conversations ++ [c] }

/-- `ConversationRepository::update_timestamp` (success case). -/
def touchConversation (st : Store) (id : String) (now : Nat) : Store :=
  { st with conversations := st.conversations.map (fun c => if c.id == id then { c with updated_at := now } else c) }

/-- `MessageRepository::find_by_conversation_id` (success case). -/
def findMessages (st : Store) (conversation_id : String) : List Message :=
  st.messages.filter (fun m => m.conversation_id == conversation_id)

/-- `MessageRepository::save` (success case). -/
def saveMessage (st : Store) (m : Message) : Store :=
  { st with messages := st.messages ++ [m] }

/-- `MAX_MESSAGE_LENGTH` from `src/service/chat_service.rs`. -/
def MAX_MESSAGE_LENGTH : Nat := 8000

/-- The conversation-title derivation inlined in `prepare_chat`: the trimmed
message, cut to its first 60 characters with `…` appended when longer. -/
def deriveTitle (message : String) : String :=
  let t := rustTrim message
  if 60 < charLen t then ⟨t.data.take 60⟩ ++ "…" else t

/-- The history filter at the end of `prepare_chat`: drop the just-saved
user message, by id, from what the store returned. -/
def history_after_save (all_messages : List Message) (saved_id : String) :
    List Message :=
  all_messages.filter (fun m => m.id != saved_id)

/-- Tail of `ChatService::prepare_chat` after conversation resolution:
persist the user message, then fetch and filter the history. -/
def prepareAfterConv (env : DbEnv) (st : Store) (request : ChatRequest)
    (conversation_id freshMsgId : String) (now : Nat) :
    Store × Except AppError ChatContext :=
  if env.saveMsgOk then
    if env.findMsgsOk then
      (saveMessage st ⟨freshMsgId, conversation_id, .user, request.message, now⟩,
        Except.ok ⟨conversation_id,
          history_after_save
            (findMessages
              (saveMessage st ⟨freshMsgId, conversation_id, .user, request.message, now⟩)
              conversation_id)
            freshMsgId,
          request.message⟩)
    else
      (saveMessage st ⟨freshMsgId, conversation_id, .user, request.message, now⟩,
        Except.error (AppError.DatabaseQueryFailed "Failed to fetch messages"))
  else
    (st, Except.error (AppError.DatabaseQueryFailed "Failed to save message"))

/-- `ChatService::prepare_chat`.  `freshConvId` is the `Uuid::new_v4` drawn
when no conversation id was supplied; `freshMsgId` the one drawn by
`Message::new` for the user message. -/
def prepare_chat (env : DbEnv) (st : Store) (request : ChatRequest)
    (freshConvId freshMsgId : String) (now : Nat) :
    Store × Except AppError ChatContext :=
  if rustTrim request.message = "" then
    (st, Except.error (AppError.EmptyField "message"))
  else if MAX_MESSAGE_LENGTH < byteLen request.message then
    (st, Except.error (AppError.FieldTooLong "message" MAX_MESSAGE_LENGTH
      (byteLen request.message)))
  else
    if env.findConvOk then
      match findConversation st (request.conversation_id.getD freshConvId) with
      | some _ =>
        prepareAfterConv env st request (request.conversation_id.getD freshConvId)
          freshMsgId now
      | none =>
        if env.saveConvOk then
          prepareAfterConv env
            (saveConversation st
              ⟨request.conversation_id.getD freshConvId, deriveTitle request.message,
                now, now⟩)
            request (request.conversation_id.getD freshConvId) freshMsgId now
        else
          (st, Except.error (AppError.DatabaseQueryFailed "Failed to save conversation"))
    else
      (st, Except.error (AppError.DatabaseQueryFailed "Failed to find conversation"))

/-- `ChatService::save_assistant_message`: persist the assistant reply, then
bump the conversation timestamp, logging (and swallowing) a bump failure. -/
def save_assistant_message (env : DbEnv) (st : Store)
    (conversation_id content freshMsgId : String) (now : Nat) :
    Store × Except AppError Message :=
  if env.saveMsgOk then
    let msg : Message := ⟨freshMsgId, conversation_id, .assistant, content, now⟩
    let stSaved := saveMessage st msg
    (if env.touchOk then touchConversation stSaved conversation_id now else stSaved,
      Except.ok msg)
  else
    (st, Except.error (AppError.DatabaseQueryFailed "Failed to save message"))

/-- `ChatService::chat` (the non-streaming POST /api/chat path).  The
blocking inference call is abstracted by its outcome `inference`; on success
the agent wraps the text in a fresh assistant `Message`. -/
def chat (env : DbEnv) (st : Store) (request : ChatRequest)
    (inference : Except AppError String)
    (freshConvId freshUserMsgId freshAsstMsgId : String) (now : Nat) :
    Store × Except AppError ChatResponse :=
  match prepare_chat env st request freshConvId freshUserMsgId now with
  | (st1, Except.error e) => (st1, Except.error e)
  | (st1, Except.ok ctx) =>
    match inference with
    | Except.error e => (st1, Except.error e)
    | Except.ok content =>
      let assistant_message : Message :=
        ⟨freshAsstMsgId, ctx.conversation_id, .assistant, content, now⟩
      if env.saveMsgOk then
        let stSaved := saveMessage st1 assistant_message
        let stFinal :=
          if env.touchOk then touchConversation stSaved ctx.conversation_id now
          else stSaved
        (stFinal, Except.ok ⟨ctx.conversation_id, assistant_message⟩)
      else
        (st1, Except.error (AppError.DatabaseQueryFailed "Failed to save message"))

/-- The `rig` message list: only user/assistant entries exist. -/
inductive RigMessage
  | user (content : String)
  | assistant (content : String)
deriving DecidableEq

/-- `to_rig_history` from `src/agent/mod.rs`: system-role records map to
nothing (the system prompt travels separately as the preamble). -/
def to_rig_history (messages : List Message) : List RigMessage :=
  messages.filterMap
    (fun m => match m.role with
      | .user => some (.user m.content)
      | .assistant => some (.assistant m.content)
      | .system => none)

/-- One item of the inference stream consumed by
`OllamaAgentService::stream_chat`: a text chunk, a non-text item (ignored),
or a stream error. -/
inductive StreamItem
  | text (s : String)
  | other
  | err (message : String)
deriving DecidableEq

/-- Joint state of the generation producer (`stream_chat`), the bounded
`tokio::sync::mpsc::channel::<String>(64)` hand-off, and the draining
consumer loop in `handle_socket`. -/
structure RelayState where
  items : List StreamItem
  producerResult : Option (Option String)
  buffer : List String
  emitted : List String
  full_content : String
  consumerDone : Bool
deriving DecidableEq

def channelCapacity : Nat := 64

/-- Interleaved small-step semantics of producer and consumer.
`producerResult = none` means `stream_chat` is still running;
`some none` that it returned `Ok(())`; `some (some e)` that it returned
`Err(InferenceError e)`.  The sender is dropped exactly when the producer
has returned, and the consumer never drops the receiver before its drain
loop ends, matching `handle_socket`. -/
inductive RelayStep : RelayState → RelayState → Prop
  | send (s : String) (rest : List StreamItem) (st : RelayState)
      (hi : st.items = .text s :: rest) (hp : st.producerResult = none)
      (hb : st.buffer.length < channelCapacity) :
      RelayStep st { st with items := rest, buffer := st.buffer ++ [s] }
  | skip (rest : List StreamItem) (st : RelayState)
      (hi : st.items = .other :: rest) (hp : st.producerResult = none) :
      RelayStep st { st with items := rest }
  | fail (e : String) (rest : List StreamItem) (st : RelayState)
      (hi : st.items = .err e :: rest) (hp : st.producerResult = none) :
      RelayStep st { st with items := rest, producerResult := some (some e) }
  | finish (st : RelayState)
      (hi : st.items = []) (hp : st.producerResult = none) :
      RelayStep st { st with producerResult := some none }
  | recv (s : String) (rest : List String) (st : RelayState)
      (hc : st.consumerDone = false) (hb : st.buffer = s :: rest) :
      RelayStep st { st with buffer := rest, emitted := st.emitted ++ [s], full_content := st.full_content ++ s }
  | close (st : RelayState)
      (hc : st.consumerDone = false) (hb : st.buffer = [])
      (hp : st.producerResult ≠ none) :
      RelayStep st { st with consumerDone := true }

def RelaySteps : RelayState → RelayState → Prop :=
  Relation.ReflTransGen RelayStep

def initRelay (items : List StreamItem) : RelayState :=
  ⟨items, none, [], [], "", false⟩

/-- The text chunks `stream_chat` pushes before it returns: everything up to
the first stream error. -/
def textsUntilErr : List StreamItem → List String
  | [] => []
  | .text s :: rest => s :: textsUntilErr rest
  | .other :: rest => textsUntilErr rest
  | .err _ :: _ => []

/-- The producer's result: the first stream error, if any. -/
def firstErr : List StreamItem → Option String
  | [] => none
  | .text _ :: rest => firstErr rest
  | .other :: rest => firstErr rest
  | .err e :: _ => some e

/-- Relay invariant: the consumer's accumulator tracks its emitted chunks,
and emitted + buffered + still-to-send chunks always make up exactly the
chunks the producer will have pushed when it returns. -/
def RelayInv (L : List StreamItem) (st : RelayState) : Prop :=
  st.full_content = String.join st.emitted ∧
  (st.producerResult = none →
    st.emitted ++ st.buffer ++ textsUntilErr st.items = textsUntilErr L ∧
      firstErr st.items = firstErr L) ∧
  (∀ res, st.producerResult = some res →
    st.emitted ++ st.buffer = textsUntilErr L ∧ res = firstErr L) ∧
  (st.consumerDone = true → st.buffer = [] ∧ st.producerResult ≠ none)

/-- The wire events of `src/routes/ws_routes.rs`, mirroring the `WsEvent`
enum deserialised by `frontend/src/models.rs`. -/
inductive WsEvent
  | StreamStart (conversation_id : String)
  | StreamChunk (content : String)
  | StreamEnd (message_id : String) (full_content : String)
  | Error (message : String)
deriving DecidableEq

/-- State of the socket from the server's point of view: `oracle i` says
whether the `i`-th send attempt (serialisation plus `socket.send`) reaches
the client.  `attempted` is every event handed to `send_event`; `delivered`
the subsequence the client actually receives. -/
structure SendSt where
  oracle : Nat → Bool
  idx : Nat
  attempted : List WsEvent
  delivered : List WsEvent

/-- `send_event` from `src/routes/ws_routes.rs`: serialisation or socket
failures are discarded (`let _ = socket.send(..)`), so the caller observes
nothing either way. -/
def send_event (s : SendSt) (event : WsEvent) : SendSt :=
  { s with
      idx := s.idx + 1
      attempted := s.attempted ++ [event]
      delivered := s.delivered ++ (if s.oracle s.idx then [event] else []) }

def send_events (s : SendSt) (events : List WsEvent) : SendSt :=
  events.foldl send_event s

/-- One request/reply cycle of `handle_socket` after the incoming frame has
been parsed, with the relay outcome (`emitted` chunks in arrival order and
the joined producer result `streamResult`) supplied by the relay semantics.
Mirrors the source line by line: prepare, `stream_start`, the chunk relay,
then join the producer and finalize. -/
def handle_socket_turn (env : DbEnv) (send0 : SendSt) (st : Store)
    (request : ChatRequest) (emitted : List String)
    (streamResult : Option String)
    (freshConvId freshUserMsgId freshAsstMsgId : String) (now : Nat) :
    SendSt × Store :=
  match prepare_chat env st request freshConvId freshUserMsgId now with
  | (st1, Except.error e) => (send_event send0 (.Error e.display), st1)
  | (st1, Except.ok ctx) =>
    let send1 := send_event send0 (.StreamStart ctx.conversation_id)
    let send2 := send_events send1 (emitted.map WsEvent.StreamChunk)
    let full_content := String.join emitted
    match streamResult with
    | some e =>
      (send_event send2 (.Error (AppError.InferenceError e).display), st1)
    | none =>
      match save_assistant_message env st1 ctx.conversation_id full_content
          freshAsstMsgId now with
      | (st2, Except.ok msg) =>
        (send_event send2 (.StreamEnd msg.id full_content), st2)
      | (st2, Except.error e) =>
        (send_event send2 (.Error ("Failed to save response: " ++ e.display)), st2)

/-- An 8001-character message of two-byte characters: 16002 UTF-8 bytes. -/
def longAccented : String := ⟨List.replicate 8001 'é'⟩

/-- An 8001-character ASCII message: 8001 UTF-8 bytes. -/
def longAscii : String := ⟨List.replicate 8001 'a'⟩

/-! ## Helper lemmas -/

theorem join_append_single (l : List String) (s : String) :
    String.join (l ++ [s]) = String.join l ++ s := by
  simp [String.join, List.foldl_append]

theorem byteLen_mk_replicate (n : Nat) (c : Char) :
    byteLen ⟨List.replicate n c⟩ = n * c.utf8Size := by
  simp [byteLen, List.map_replicate, List.sum_replicate, smul_eq_mul]

theorem charLen_mk_replicate (n : Nat) (c : Char) :
    charLen ⟨List.replicate n c⟩ = n := by
  simp [charLen]

theorem dropWhile_replicate_of_not (n : Nat) (c : Char)
    (h : isWsChar c = false) :
    (List.replicate n c).dropWhile isWsChar = List.replicate n c := by
  cases n with
  | zero => rfl
  | succ m => simp [List.replicate_succ, List.dropWhile_cons, h]

theorem rustTrim_mk_replicate (n : Nat) (c : Char) (h : isWsChar c = false) :
    rustTrim ⟨List.replicate n c⟩ = ⟨List.replicate n c⟩ := by
  simp [rustTrim, dropWhile_replicate_of_not n c h, List.reverse_replicate]

theorem textsUntilErr_map_text (l : List String) :
    textsUntilErr (l.map StreamItem.text) = l := by
  induction l with
  | nil => rfl
  | cons s rest ih => simp [textsUntilErr, ih]

theorem firstErr_map_text (l : List String) :
    firstErr (l.map StreamItem.text) = none := by
  induction l with
  | nil => rfl
  | cons s rest ih => simp [firstErr, ih]

theorem textsUntilErr_map_text_err (l : List String) (e : String) :
    textsUntilErr (l.map StreamItem.text ++ [StreamItem.err e]) = l := by
  induction l with
  | nil => rfl
  | cons s rest ih => simp [textsUntilErr, ih]

theorem firstErr_map_text_err (l : List String) (e : String) :
    firstErr (l.map StreamItem.text ++ [StreamItem.err e]) = some e := by
  induction l with
  | nil => rfl
  | cons s rest ih => simp [firstErr, ih]

/-! ## Relay invariant -/

theorem relayInv_init (L : List StreamItem) : RelayInv L (initRelay L) := by
  refine ⟨rfl, fun _ => ⟨rfl, rfl⟩, fun res hres => ?_, fun h => ?_⟩
  · simp [initRelay] at hres
  · simp [initRelay] at h

theorem relayInv_step {L : List StreamItem} {a b : RelayState}
    (hinv : RelayInv L a) (hstep : RelayStep a b) : RelayInv L b := by
  obtain ⟨hfull, hrun, hsome, hcons⟩ := hinv
  cases hstep with
  | send s rest st hi hp hb =>
    refine ⟨hfull, fun _ => ?_, fun res hres => ?_, fun h => ?_⟩
    · obtain ⟨h1, h2⟩ := hrun hp
      rw [hi] at h1 h2
      simp only [textsUntilErr] at h1
      simp only [firstErr] at h2
      constructor
      · simpa [List.append_assoc] using h1
      · exact h2
    · exact absurd (hp ▸ hres) (by simp)
    · exact absurd hp (hcons h).2
  | skip rest st hi hp =>
    refine ⟨hfull, fun _ => ?_, fun res hres => ?_, fun h => ?_⟩
    · obtain ⟨h1, h2⟩ := hrun hp
      rw [hi] at h1 h2
      simp only [textsUntilErr] at h1
      simp only [firstErr] at h2
      exact ⟨h1, h2⟩
    · exact absurd (hp ▸ hres) (by simp)
    · exact absurd hp (hcons h).2
  | fail e rest st hi hp =>
    refine ⟨hfull, fun hnone => ?_, fun res hres => ?_, fun h => ?_⟩
    · simp at hnone
    · obtain ⟨h1, h2⟩ := hrun hp
      rw [hi] at h1 h2
      simp only [textsUntilErr, List.append_nil] at h1
      simp only [firstErr] at h2
      have hre : res = some e := by
        have := hres
        simp at this
        exact this.symm
      exact ⟨h1, hre.trans h2⟩
    · exact absurd hp (hcons h).2
  | finish st hi hp =>
    refine ⟨hfull, fun hnone => ?_, fun res hres => ?_, fun h => ?_⟩
    · simp at hnone
    · obtain ⟨h1, h2⟩ := hrun hp
      rw [hi] at h1 h2
      simp only [textsUntilErr, List.append_nil] at h1
      simp only [firstErr] at h2
      have hre : res = none := by
        have := hres
        simp at this
        exact this.symm
      exact ⟨h1, hre.trans h2⟩
    · exact absurd hp (hcons h).2
  | recv s rest st hc hb =>
    refine ⟨?_, fun hnone => ?_, fun res hres => ?_, fun h => ?_⟩
    · simp only [hfull, join_append_single]
    · obtain ⟨h1, h2⟩ := hrun hnone
      rw [hb] at h1
      refine ⟨?_, h2⟩
      simpa [List.append_assoc] using h1
    · obtain ⟨h1, h2⟩ := hsome res hres
      rw [hb] at h1
      refine ⟨?_, h2⟩
      simpa [List.append_assoc] using h1
    · rw [hc] at h
      exact absurd h (by simp)
  | close st hc hb hp =>
    refine ⟨hfull, hrun, hsome, fun _ => ⟨hb, hp⟩⟩

theorem relayInv_of_steps {L : List StreamItem} {st : RelayState}
    (hsteps : RelaySteps (initRelay L) st) : RelayInv L st := by
  induction hsteps with
  | refl => exact relayInv_init L
  | tail hab hbc ih => exact relayInv_step ih hbc

/-- Every completed drain loop has relayed, in order, exactly the chunks the
producer pushed, accumulated their concatenation, and observed the
producer's result. -/
theorem relay_outcome {L : List StreamItem} {st : RelayState}
    (hsteps : RelaySteps (initRelay L) st) (hdone : st.consumerDone = true) :
    st.emitted = textsUntilErr L ∧
      st.full_content = String.join (textsUntilErr L) ∧
      st.producerResult = some (firstErr L) := by
  obtain ⟨hfull, hrun, hsome, hcons⟩ := relayInv_of_steps hsteps
  obtain ⟨hbuf, hne⟩ := hcons hdone
  obtain ⟨res, hres⟩ := Option.ne_none_iff_exists'.mp hne
  obtain ⟨h1, h2⟩ := hsome res hres
  rw [hbuf, List.append_nil] at h1
  exact ⟨h1, by rw [hfull, h1], by rw [hres, ← h2]⟩

/-! ## Socket-send bookkeeping -/

theorem send_event_attempted (s : SendSt) (ev : WsEvent) :
    (send_event s ev).attempted = s.attempted ++ [ev] := rfl

theorem send_event_oracle (s : SendSt) (ev : WsEvent) :
    (send_event s ev).oracle = s.oracle := rfl

theorem send_events_attempted (events : List WsEvent) :
    ∀ s : SendSt, (send_events s events).attempted = s.attempted ++ events := by
  induction events with
  | nil => intro s; simp [send_events]
  | cons ev rest ih =>
    intro s
    have h := ih (send_event s ev)
    simp only [send_events, List.foldl_cons] at h ⊢
    rw [h, send_event_attempted, List.append_assoc]
    rfl

theorem send_events_oracle (events : List WsEvent) :
    ∀ s : SendSt, (send_events s events).oracle = s.oracle := by
  induction events with
  | nil => intro s; simp [send_events]
  | cons ev rest ih =>
    intro s
    have h := ih (send_event s ev)
    simp only [send_events, List.foldl_cons] at h ⊢
    rw [h, send_event_oracle]

theorem send_events_delivered_of_true (events : List WsEvent) :
    ∀ s : SendSt, (∀ i, s.oracle i = true) →
      (send_events s events).delivered = s.delivered ++ events := by
  induction events with
  | nil => intro s _; simp [send_events]
  | cons ev rest ih =>
    intro s hor
    have h := ih (send_event s ev) (by intro i; rw [send_event_oracle]; exact hor i)
    simp only [send_events, List.foldl_cons] at h ⊢
    rw [h]
    simp [send_event, hor s.idx]

theorem send_event_delivered_of_true (s : SendSt) (ev : WsEvent)
    (hor : ∀ i, s.oracle i = true) :
    (send_event s ev).delivered = s.delivered ++ [ev] := by
  simp [send_event, hor s.idx]

/-! ## Environment bookkeeping -/

theorem touch_update_saveMsgOk (env : DbEnv) (b : Bool) :
    ({ env with touchOk := b } : DbEnv).saveMsgOk = env.saveMsgOk := rfl

theorem touch_update_touchOk (env : DbEnv) (b : Bool) :
    ({ env with touchOk := b } : DbEnv).touchOk = b := rfl

theorem prepare_chat_touch_invariant (env : DbEnv) (b : Bool) (st : Store)
    (request : ChatRequest) (freshConvId freshMsgId : String) (now : Nat) :
    prepare_chat { env with touchOk := b } st request freshConvId freshMsgId now =
      prepare_chat env st request freshConvId freshMsgId now := rfl

theorem touchConversation_messages (st : Store) (id : String) (now : Nat) :
    (touchConversation st id now).messages = st.messages := rfl

theorem saveMessage_messages (st : Store) (m : Message) :
    (saveMessage st m).messages = st.messages ++ [m] := rfl

theorem saveMessage_conversations (st : Store) (m : Message) :
    (saveMessage st m).conversations = st.conversations := rfl

theorem saveConversation_conversations (st : Store) (c : Conversation) :
    (saveConversation st c).conversations = st.conversations ++ [c] := rfl

theorem run_send_chain_delivered (oracle : Nat → Bool)
    (hconn : ∀ i, oracle i = true) (a b : WsEvent) (mid : List WsEvent) :
    (send_event (send_events (send_event ⟨oracle, 0, [], []⟩ a) mid) b).delivered =
      a :: (mid ++ [b]) := by
  have h0 : ∀ i, (⟨oracle, 0, [], []⟩ : SendSt).oracle i = true := hconn
  have h1 : ∀ i, (send_event ⟨oracle, 0, [], []⟩ a).oracle i = true := by
    intro i
    rw [send_event_oracle]
    exact h0 i
  have h2 : ∀ i,
      (send_events (send_event ⟨oracle, 0, [], []⟩ a) mid).oracle i = true := by
    intro i
    rw [send_events_oracle]
    exact h1 i
  rw [send_event_delivered_of_true _ _ h2, send_events_delivered_of_true _ _ h1,
    send_event_delivered_of_true _ _ h0]
  simp

/-! ## Claim theorems -/

/-- C9: For every error returned by a non-streaming completion, the
transport status is determined solely by the error kind: validation errors
map to 400, not-found errors to 404, inference-backend-unavailable to 503,
and every other error kind to 500. -/
theorem error_kind_determines_status :
    (∀ f, error_response (AppError.EmptyField f) = 400) ∧
    (∀ f mx ac, error_response (AppError.FieldTooLong f mx ac) = 400) ∧
    (∀ t i, error_response (AppError.RecordNotFound t i) = 404) ∧
    (∀ i, error_response (AppError.ConversationNotFound i) = 404) ∧
    (∀ h, error_response (AppError.OllamaUnavailable h) = 503) ∧
    (∀ m, error_response (AppError.ModelNotFound m) = 500) ∧
    (∀ m, error_response (AppError.InferenceError m) = 500) ∧
    (∀ m, error_response (AppError.DatabaseConnectionFailed m) = 500) ∧
    (∀ m, error_response (AppError.DatabaseQueryFailed m) = 500) ∧
    (∀ m, error_response (AppError.Unexpected m) = 500) :=
  ⟨fun _ => rfl, fun _ _ _ => rfl, fun _ _ => rfl, fun _ => rfl, fun _ => rfl,
    fun _ => rfl, fun _ => rfl, fun _ => rfl, fun _ => rfl, fun _ => rfl⟩

/-- C10: Event emission is best-effort: serialisation or socket failures are
silently discarded, so for any two delivery oracles one streamed turn
attempts exactly the same events and ends in exactly the same store —
event-send failure never alters control flow or persistence. -/
theorem send_failure_does_not_alter_control_flow
    (env : DbEnv) (o1 o2 : Nat → Bool) (st : Store) (request : ChatRequest)
    (emitted : List String) (streamResult : Option String)
    (freshConvId freshUserMsgId freshAsstMsgId : String) (now : Nat) :
    (handle_socket_turn env ⟨o1, 0, [], []⟩ st request emitted streamResult
        freshConvId freshUserMsgId freshAsstMsgId now).1.attempted =
      (handle_socket_turn env ⟨o2, 0, [], []⟩ st request emitted streamResult
        freshConvId freshUserMsgId freshAsstMsgId now).1.attempted ∧
    (handle_socket_turn env ⟨o1, 0, [], []⟩ st request emitted streamResult
        freshConvId freshUserMsgId freshAsstMsgId now).2 =
      (handle_socket_turn env ⟨o2, 0, [], []⟩ st request emitted streamResult
        freshConvId freshUserMsgId freshAsstMsgId now).2 := by
  rcases hp : prepare_chat env st request freshConvId freshUserMsgId now with ⟨st1, r⟩
  cases r with
  | error e =>
    simp [handle_socket_turn, hp, send_event_attempted]
  | ok ctx =>
    cases streamResult with
    | some e =>
      simp [handle_socket_turn, hp, send_event_attempted, send_events_attempted]
    | none =>
      rcases hs : save_assistant_message env st1 ctx.conversation_id
          (String.join emitted) freshAsstMsgId now with ⟨st2, r2⟩
      cases r2 with
      | ok msg =>
        simp [handle_socket_turn, hp, hs, send_event_attempted, send_events_attempted]
      | error e =>
        simp [handle_socket_turn, hp, hs, send_event_attempted, send_events_attempted]

/-- C5: The history handed to inference excludes the user message just saved
by `prepare_chat` (filtered by message id) and every system-role record
(filtered by `to_rig_history`), regardless of the order the store returns
messages in; and `prepare_chat`'s context history is exactly this id filter
over what the store returned. -/
theorem inference_history_excludes_saved_and_system :
    (∀ (all_messages : List Message) (saved_id : String),
      ∀ m ∈ history_after_save all_messages saved_id, m.id ≠ saved_id) ∧
    (∀ messages : List Message,
      to_rig_history messages =
        to_rig_history (messages.filter (fun m => m.role != MessageRole.system))) ∧
    (∀ (env : DbEnv) (st st1 : Store) (request : ChatRequest)
        (ctx : ChatContext) (freshConvId freshMsgId : String) (now : Nat),
      prepare_chat env st request freshConvId freshMsgId now = (st1, Except.ok ctx) →
      ctx.history =
        history_after_save (findMessages st1 ctx.conversation_id) freshMsgId) := by
  refine ⟨?_, ?_, ?_⟩
  · intro all_messages saved_id m hm
    simp [history_after_save, List.mem_filter] at hm
    exact hm.2
  · intro messages
    induction messages with
    | nil => rfl
    | cons m rest ih =>
      cases hrole : m.role <;>
        simp [to_rig_history, List.filterMap_cons, List.filter_cons, hrole] <;>
        simpa [to_rig_history] using ih
  · intro env st st1 request ctx freshConvId freshMsgId now h
    unfold prepare_chat prepareAfterConv at h
    repeat' split at h
    all_goals
      simp only [Prod.mk.injEq] at h
    all_goals
      obtain ⟨hst, hctx⟩ := h
    all_goals
      first
      | exact Except.noConfusion hctx
      | (injection hctx with hctx
         subst hst
         subst hctx
         rfl)

/-- C8: A failure of the conversation recency-timestamp bump never surfaces:
both the synchronous chat path and the streamed-finalize path return the
same value and persist the same messages whether the bump succeeded or
failed, and when the save itself succeeds the persisted assistant message is
returned. -/
theorem recency_bump_failure_never_surfaces
    (env : DbEnv) (st : Store) (request : ChatRequest)
    (inference : Except AppError String)
    (freshConvId freshUserMsgId freshAsstMsgId : String)
    (conversation_id content freshMsgId : String) (now : Nat) :
    ((chat { env with touchOk := true } st request inference freshConvId
        freshUserMsgId freshAsstMsgId now).2 =
      (chat { env with touchOk := false } st request inference freshConvId
        freshUserMsgId freshAsstMsgId now).2) ∧
    ((chat { env with touchOk := true } st request inference freshConvId
        freshUserMsgId freshAsstMsgId now).1.messages =
      (chat { env with touchOk := false } st request inference freshConvId
        freshUserMsgId freshAsstMsgId now).1.messages) ∧
    ((save_assistant_message { env with touchOk := true } st conversation_id
        content freshMsgId now).2 =
      (save_assistant_message { env with touchOk := false } st conversation_id
        content freshMsgId now).2) ∧
    ((save_assistant_message { env with touchOk := true } st conversation_id
        content freshMsgId now).1.messages =
      (save_assistant_message { env with touchOk := false } st conversation_id
        content freshMsgId now).1.messages) ∧
    (env.saveMsgOk = true →
      (save_assistant_message { env with touchOk := false } st conversation_id
          content freshMsgId now).2 =
        Except.ok ⟨freshMsgId, conversation_id, MessageRole.assistant, content, now⟩ ∧
      (⟨freshMsgId, conversation_id, MessageRole.assistant, content, now⟩ : Message) ∈
        (save_assistant_message { env with touchOk := false } st conversation_id
          content freshMsgId now).1.messages) := by
  refine ⟨?_, ?_, ?_, ?_, ?_⟩
  · rcases hp : prepare_chat env st request freshConvId freshUserMsgId now with ⟨st1, r⟩
    simp only [chat, prepare_chat_touch_invariant, hp]
    cases r with
    | error e => rfl
    | ok ctx =>
      cases inference with
      | error e => rfl
      | ok content2 =>
        simp only [touch_update_saveMsgOk, touch_update_touchOk]
        cases hs : env.saveMsgOk <;> simp [hs]
  · rcases hp : prepare_chat env st request freshConvId freshUserMsgId now with ⟨st1, r⟩
    simp only [chat, prepare_chat_touch_invariant, hp]
    cases r with
    | error e => rfl
    | ok ctx =>
      cases inference with
      | error e => rfl
      | ok content2 =>
        simp only [touch_update_saveMsgOk, touch_update_touchOk]
        cases hs : env.saveMsgOk <;> simp [hs, touchConversation_messages]
  · simp only [save_assistant_message, touch_update_saveMsgOk, touch_update_touchOk]
    cases hs : env.saveMsgOk <;> simp [hs]
  · simp only [save_assistant_message, touch_update_saveMsgOk, touch_update_touchOk]
    cases hs : env.saveMsgOk <;> simp [hs, touchConversation_messages]
  · intro hs
    simp only [save_assistant_message, touch_update_saveMsgOk, touch_update_touchOk, hs,
      saveMessage_messages]
    simp [saveMessage]

/-- C1: For a streamed turn whose generation producer emits fragments
F1..Fn and then reports success, any completed drain delivers to the client
the start event, one chunk event per fragment in exactly the emission order,
then exactly one end event carrying the concatenation of all fragments, and
persists an assistant message with that concatenated content. -/
theorem streamed_success_relays_in_order_and_persists
    (env : DbEnv) (st st1 : Store) (request : ChatRequest) (ctx : ChatContext)
    (frags : List String) (rs : RelayState) (res : Option String)
    (oracle : Nat → Bool)
    (freshConvId freshUserMsgId freshAsstMsgId : String) (now : Nat)
    (hsave : env.saveMsgOk = true)
    (hconn : ∀ i, oracle i = true)
    (hprep : prepare_chat env st request freshConvId freshUserMsgId now =
      (st1, Except.ok ctx))
    (hsteps : RelaySteps (initRelay (frags.map StreamItem.text)) rs)
    (hdone : rs.consumerDone = true)
    (hres : rs.producerResult = some res) :
    (handle_socket_turn env ⟨oracle, 0, [], []⟩ st request rs.emitted res
        freshConvId freshUserMsgId freshAsstMsgId now).1.delivered =
      WsEvent.StreamStart ctx.conversation_id ::
        (frags.map WsEvent.StreamChunk ++
          [WsEvent.StreamEnd freshAsstMsgId (String.join frags)]) ∧
    (handle_socket_turn env ⟨oracle, 0, [], []⟩ st request rs.emitted res
        freshConvId freshUserMsgId freshAsstMsgId now).2.messages =
      st1.messages ++
        [⟨freshAsstMsgId, ctx.conversation_id, MessageRole.assistant,
          String.join frags, now⟩] := by
  obtain ⟨hemit, hfull, hpr⟩ := relay_outcome hsteps hdone
  rw [textsUntilErr_map_text] at hemit
  rw [firstErr_map_text] at hpr
  have hres0 : res = none := by
    have h := hres.symm.trans hpr
    injection h
  subst hres0
  rw [hemit]
  constructor
  · simp only [handle_socket_turn, hprep]
    simp [save_assistant_message, hsave]
    exact run_send_chain_delivered oracle hconn _ _ _
  · simp only [handle_socket_turn, hprep]
    simp [save_assistant_message, hsave]
    cases ht : env.touchOk <;>
      simp [ht, touchConversation_messages, saveMessage_messages]

/-- Witness for C1: two fragments streamed to completion on a fresh
conversation. -/
theorem streamed_success_relays_witness :
    (handle_socket_turn okEnv ⟨fun _ => true, 0, [], []⟩ ⟨[], []⟩ ⟨none, "Hi"⟩
        (⟨[], some none, [], ["He", "llo"], "Hello", true⟩ : RelayState).emitted
        none "c1" "u1" "a1" 5).1.delivered =
      WsEvent.StreamStart
          (⟨"c1", [], "Hi"⟩ : ChatContext).conversation_id ::
        (["He", "llo"].map WsEvent.StreamChunk ++
          [WsEvent.StreamEnd "a1" (String.join ["He", "llo"])]) ∧
    (handle_socket_turn okEnv ⟨fun _ => true, 0, [], []⟩ ⟨[], []⟩ ⟨none, "Hi"⟩
        (⟨[], some none, [], ["He", "llo"], "Hello", true⟩ : RelayState).emitted
        none "c1" "u1" "a1" 5).2.messages =
      (⟨[⟨"c1", "Hi", 5, 5⟩],
          [⟨"u1", "c1", MessageRole.user, "Hi", 5⟩]⟩ : Store).messages ++
        [⟨"a1", (⟨"c1", [], "Hi"⟩ : ChatContext).conversation_id,
          MessageRole.assistant, String.join ["He", "llo"], 5⟩] := by
  have hsteps : RelaySteps (initRelay (["He", "llo"].map StreamItem.text))
      ⟨[], some none, [], ["He", "llo"], "Hello", true⟩ := by
    refine Relation.ReflTransGen.head
      (b := ⟨[StreamItem.text "llo"], none, ["He"], [], "", false⟩)
      (RelayStep.send "He" [StreamItem.text "llo"] _ rfl rfl (by decide)) ?_
    refine Relation.ReflTransGen.head
      (b := ⟨[], none, ["He", "llo"], [], "", false⟩)
      (RelayStep.send "llo" [] _ rfl rfl (by decide)) ?_
    refine Relation.ReflTransGen.head
      (b := ⟨[], some none, ["He", "llo"], [], "", false⟩)
      (RelayStep.finish _ rfl rfl) ?_
    refine Relation.ReflTransGen.head
      (b := ⟨[], some none, ["llo"], ["He"], "He", false⟩)
      (RelayStep.recv "He" ["llo"] _ rfl rfl) ?_
    refine Relation.ReflTransGen.head
      (b := ⟨[], some none, [], ["He", "llo"], "Hello", false⟩)
      (RelayStep.recv "llo" [] _ rfl rfl) ?_
    exact Relation.ReflTransGen.single (RelayStep.close _ rfl rfl (by simp))
  exact streamed_success_relays_in_order_and_persists okEnv ⟨[], []⟩
    ⟨[⟨"c1", "Hi", 5, 5⟩], [⟨"u1", "c1", MessageRole.user, "Hi", 5⟩]⟩
    ⟨none, "Hi"⟩ ⟨"c1", [], "Hi"⟩ ["He", "llo"]
    ⟨[], some none, [], ["He", "llo"], "Hello", true⟩ none (fun _ => true)
    "c1" "u1" "a1" 5 rfl (fun _ => rfl) rfl hsteps rfl rfl

/-- C6: For a streamed turn whose inference backend fails after emitting
fragments F1..Fk, any completed drain delivers chunk events for exactly
F1..Fk followed by exactly one error event, and leaves the store exactly as
`prepare_chat` left it — no assistant message is persisted. -/
theorem streamed_failure_relays_then_single_error
    (env : DbEnv) (st st1 : Store) (request : ChatRequest) (ctx : ChatContext)
    (frags : List String) (e : String) (rs : RelayState) (res : Option String)
    (oracle : Nat → Bool)
    (freshConvId freshUserMsgId freshAsstMsgId : String) (now : Nat)
    (hconn : ∀ i, oracle i = true)
    (hprep : prepare_chat env st request freshConvId freshUserMsgId now =
      (st1, Except.ok ctx))
    (hsteps : RelaySteps
      (initRelay (frags.map StreamItem.text ++ [StreamItem.err e])) rs)
    (hdone : rs.consumerDone = true)
    (hres : rs.producerResult = some res) :
    (handle_socket_turn env ⟨oracle, 0, [], []⟩ st request rs.emitted res
        freshConvId freshUserMsgId freshAsstMsgId now).1.delivered =
      WsEvent.StreamStart ctx.conversation_id ::
        (frags.map WsEvent.StreamChunk ++
          [WsEvent.Error (AppError.InferenceError e).display]) ∧
    (handle_socket_turn env ⟨oracle, 0, [], []⟩ st request rs.emitted res
        freshConvId freshUserMsgId freshAsstMsgId now).2 = st1 := by
  obtain ⟨hemit, hfull, hpr⟩ := relay_outcome hsteps hdone
  rw [textsUntilErr_map_text_err] at hemit
  rw [firstErr_map_text_err] at hpr
  have hres0 : res = some e := by
    have h := hres.symm.trans hpr
    injection h
  subst hres0
  rw [hemit]
  constructor
  · simp only [handle_socket_turn, hprep]
    exact run_send_chain_delivered oracle hconn _ _ _
  · simp only [handle_socket_turn, hprep]

/-- Witness for C6: one fragment, then a stream failure. -/
theorem streamed_failure_relays_witness :
    (handle_socket_turn okEnv ⟨fun _ => true, 0, [], []⟩ ⟨[], []⟩ ⟨none, "Hi"⟩
        (⟨[], some (some "boom"), [], ["A"], "A", true⟩ : RelayState).emitted
        (some "boom") "c1" "u1" "a1" 5).1.delivered =
      WsEvent.StreamStart
          (⟨"c1", [], "Hi"⟩ : ChatContext).conversation_id ::
        (["A"].map WsEvent.StreamChunk ++
          [WsEvent.Error (AppError.InferenceError "boom").display]) ∧
    (handle_socket_turn okEnv ⟨fun _ => true, 0, [], []⟩ ⟨[], []⟩ ⟨none, "Hi"⟩
        (⟨[], some (some "boom"), [], ["A"], "A", true⟩ : RelayState).emitted
        (some "boom") "c1" "u1" "a1" 5).2 =
      ⟨[⟨"c1", "Hi", 5, 5⟩], [⟨"u1", "c1", MessageRole.user, "Hi", 5⟩]⟩ := by
  have hsteps : RelaySteps
      (initRelay (["A"].map StreamItem.text ++ [StreamItem.err "boom"]))
      ⟨[], some (some "boom"), [], ["A"], "A", true⟩ := by
    refine Relation.ReflTransGen.head
      (b := ⟨[StreamItem.err "boom"], none, ["A"], [], "", false⟩)
      (RelayStep.send "A" [StreamItem.err "boom"] _ rfl rfl (by decide)) ?_
    refine Relation.ReflTransGen.head
      (b := ⟨[], some (some "boom"), ["A"], [], "", false⟩)
      (RelayStep.fail "boom" [] _ rfl rfl) ?_
    refine Relation.ReflTransGen.head
      (b := ⟨[], some (some "boom"), [], ["A"], "A", false⟩)
      (RelayStep.recv "A" [] _ rfl rfl) ?_
    exact Relation.ReflTransGen.single (RelayStep.close _ rfl rfl (by simp))
  exact streamed_failure_relays_then_single_error okEnv ⟨[], []⟩
    ⟨[⟨"c1", "Hi", 5, 5⟩], [⟨"u1", "c1", MessageRole.user, "Hi", 5⟩]⟩
    ⟨none, "Hi"⟩ ⟨"c1", [], "Hi"⟩ ["A"] "boom"
    ⟨[], some (some "boom"), [], ["A"], "A", true⟩ (some "boom")
    (fun _ => true) "c1" "u1" "a1" 5 (fun _ => rfl) rfl hsteps rfl rfl

/-- C2 (code bug): when the client disconnects mid-stream — here after the
start event and the first of two chunks — the drain loop keeps consuming
(`send_event` discards socket errors), the generation runs to completion,
and the assistant message is still persisted after the disconnect: the store
gains both the user and the full assistant message even though the client
received only the first chunk. -/
theorem disconnect_mid_stream_still_persists_assistant :
    (handle_socket_turn okEnv ⟨fun i => decide (i < 2), 0, [], []⟩ ⟨[], []⟩
        ⟨none, "Hi"⟩ ["Hel", "lo"] none "c1" "u1" "a1" 5).1.delivered =
      [WsEvent.StreamStart "c1", WsEvent.StreamChunk "Hel"] ∧
    (handle_socket_turn okEnv ⟨fun i => decide (i < 2), 0, [], []⟩ ⟨[], []⟩
        ⟨none, "Hi"⟩ ["Hel", "lo"] none "c1" "u1" "a1" 5).2.messages =
      [⟨"u1", "c1", MessageRole.user, "Hi", 5⟩,
        ⟨"a1", "c1", MessageRole.assistant, "Hello", 5⟩] ∧
    RelaySteps (initRelay (["Hel", "lo"].map StreamItem.text))
      ⟨[], some none, [], ["Hel", "lo"], "Hello", true⟩ := by
  refine ⟨rfl, rfl, ?_⟩
  refine Relation.ReflTransGen.head
    (b := ⟨[StreamItem.text "lo"], none, ["Hel"], [], "", false⟩)
    (RelayStep.send "Hel" [StreamItem.text "lo"] _ rfl rfl (by decide)) ?_
  refine Relation.ReflTransGen.head
    (b := ⟨[], none, ["Hel", "lo"], [], "", false⟩)
    (RelayStep.send "lo" [] _ rfl rfl (by decide)) ?_
  refine Relation.ReflTransGen.head
    (b := ⟨[], some none, ["Hel", "lo"], [], "", false⟩)
    (RelayStep.finish _ rfl rfl) ?_
  refine Relation.ReflTransGen.head
    (b := ⟨[], some none, ["lo"], ["Hel"], "Hel", false⟩)
    (RelayStep.recv "Hel" ["lo"] _ rfl rfl) ?_
  refine Relation.ReflTransGen.head
    (b := ⟨[], some none, [], ["Hel", "lo"], "Hello", false⟩)
    (RelayStep.recv "lo" [] _ rfl rfl) ?_
  exact Relation.ReflTransGen.single (RelayStep.close _ rfl rfl (by simp))

/-- Witness for C5 at a concrete prepared turn. -/
theorem inference_history_excludes_witness :
    (⟨"c1", [], "Hi"⟩ : ChatContext).history =
      history_after_save
        (findMessages
          (prepare_chat okEnv ⟨[], []⟩ ⟨none, "Hi"⟩ "c1" "u1" 5).1
          (⟨"c1", [], "Hi"⟩ : ChatContext).conversation_id)
        "u1" :=
  inference_history_excludes_saved_and_system.2.2 okEnv ⟨[], []⟩
    (prepare_chat okEnv ⟨[], []⟩ ⟨none, "Hi"⟩ "c1" "u1" 5).1
    ⟨none, "Hi"⟩ ⟨"c1", [], "Hi"⟩ "c1" "u1" 5 rfl

/-- C3 (counterexample): a prepare request supplying conversation id "X"
that is absent from an (empty) conversation store succeeds and creates a
fresh conversation record under the supplied id — refuting "a fresh
conversation record is created only when no id was supplied at all". -/
theorem supplied_absent_id_still_creates_conversation :
    (prepare_chat okEnv ⟨[], []⟩ ⟨some "X", "hi"⟩ "f1" "u1" 7).1.conversations =
      [⟨"X", "hi", 7, 7⟩] ∧
    (prepare_chat okEnv ⟨[], []⟩ ⟨some "X", "hi"⟩ "f1" "u1" 7).2 =
      Except.ok ⟨"X", [], "hi"⟩ := by
  constructor
  · rfl
  · rfl

/-- C3 (amended): a supplied-but-absent conversation id is not an error:
for every valid utterance, prepare succeeds and creates a fresh conversation
under the resolved id — the supplied id when one was given, the freshly
generated id otherwise — with the derived title. -/
theorem prepare_creates_conversation_when_absent
    (env : DbEnv) (st : Store) (request : ChatRequest)
    (freshConvId freshMsgId : String) (now : Nat)
    (henvF : env.findConvOk = true) (henvC : env.saveConvOk = true)
    (henvM : env.saveMsgOk = true) (henvL : env.findMsgsOk = true)
    (hne : rustTrim request.message ≠ "")
    (hlen : byteLen request.message ≤ MAX_MESSAGE_LENGTH)
    (habs : findConversation st (request.conversation_id.getD freshConvId) = none) :
    (prepare_chat env st request freshConvId freshMsgId now).2 =
      Except.ok ⟨request.conversation_id.getD freshConvId,
        history_after_save
          (findMessages (prepare_chat env st request freshConvId freshMsgId now).1
            (request.conversation_id.getD freshConvId))
          freshMsgId,
        request.message⟩ ∧
    (prepare_chat env st request freshConvId freshMsgId now).1.conversations =
      st.conversations ++
        [⟨request.conversation_id.getD freshConvId, deriveTitle request.message,
          now, now⟩] := by
  have hlt : ¬MAX_MESSAGE_LENGTH < byteLen request.message := not_lt.mpr hlen
  constructor <;>
    simp [prepare_chat, prepareAfterConv, hne, hlt, habs, henvF, henvC, henvM,
      henvL, saveMessage, saveConversation]

/-- Witness for the amended C3 at the counterexample's input. -/
theorem prepare_creates_conversation_witness :
    (prepare_chat okEnv ⟨[], []⟩ ⟨some "X", "hi"⟩ "f1" "u1" 7).2 =
      Except.ok ⟨"X", [], "hi"⟩ ∧
    (prepare_chat okEnv ⟨[], []⟩ ⟨some "X", "hi"⟩ "f1" "u1" 7).1.conversations =
      [⟨"X", "hi", 7, 7⟩] :=
  prepare_creates_conversation_when_absent okEnv ⟨[], []⟩ ⟨some "X", "hi"⟩
    "f1" "u1" 7 rfl rfl rfl rfl (by decide) (by decide) rfl

/-- C4 (counterexample): an utterance of 8001 two-byte characters exceeds
the maximum measured in characters (8001 > 8000), and prepare does reject
it, but the FieldTooLong error reports actual length 16002 — the UTF-8 byte
count, not the character count 8001: the enforced unit is bytes, not
characters. -/
theorem too_long_reports_byte_length_not_chars :
    (prepare_chat okEnv ⟨[], []⟩ ⟨none, longAccented⟩ "c1" "u1" 0).2 =
      Except.error (AppError.FieldTooLong "message" MAX_MESSAGE_LENGTH 16002) ∧
    charLen longAccented = 8001 ∧
    byteLen longAccented = 16002 ∧
    (16002 : Nat) ≠ 8001 := by
  have hb : byteLen longAccented = 16002 := by
    rw [longAccented, byteLen_mk_replicate]
    have h2 : Char.utf8Size 'é' = 2 := by decide
    rw [h2]
  have hc : charLen longAccented = 8001 := by
    rw [longAccented, charLen_mk_replicate]
  have ht : rustTrim longAccented = longAccented := by
    rw [longAccented]
    exact rustTrim_mk_replicate 8001 'é' (by decide)
  have hne : ¬rustTrim longAccented = "" := by
    rw [ht, longAccented]
    intro h
    have hd : List.replicate 8001 'é' = ([] : List Char) := congrArg String.data h
    have hl : (8001 : Nat) = 0 := by
      have h3 := congrArg List.length hd
      rwa [List.length_replicate, List.length_nil] at h3
    exact absurd hl (by norm_num)
  have hgt : MAX_MESSAGE_LENGTH < byteLen longAccented := by
    rw [hb]
    norm_num [MAX_MESSAGE_LENGTH]
  rw [hb] at hgt
  refine ⟨?_, hc, hb, by norm_num⟩
  simp [prepare_chat, hne, hgt, hb]

/-- C4 (amended): for every utterance that is non-blank after trimming and
whose UTF-8 byte length exceeds the fixed maximum of 8000, prepare returns
a FieldTooLong failure reporting the configured maximum and the actual byte
length, and persists nothing: the store is returned unchanged. -/
theorem too_long_rejected_without_persisting
    (env : DbEnv) (st : Store) (request : ChatRequest)
    (freshConvId freshMsgId : String) (now : Nat)
    (hne : rustTrim request.message ≠ "")
    (hlen : MAX_MESSAGE_LENGTH < byteLen request.message) :
    prepare_chat env st request freshConvId freshMsgId now =
      (st, Except.error (AppError.FieldTooLong "message" MAX_MESSAGE_LENGTH
        (byteLen request.message))) := by
  simp [prepare_chat, hne, hlen]

/-- Witness for the amended C4: an 8001-byte ASCII utterance is rejected
with the byte length and the untouched store. -/
theorem too_long_rejected_witness :
    prepare_chat okEnv ⟨[], []⟩ ⟨none, longAscii⟩ "c1" "u1" 0 =
      (⟨[], []⟩, Except.error (AppError.FieldTooLong "message"
        MAX_MESSAGE_LENGTH (byteLen longAscii))) := by
  have ht : rustTrim longAscii = longAscii := by
    rw [longAscii]
    exact rustTrim_mk_replicate 8001 'a' (by decide)
  have hne : rustTrim longAscii ≠ "" := by
    rw [ht, longAscii]
    intro h
    have hd : List.replicate 8001 'a' = ([] : List Char) := congrArg String.data h
    have hl : (8001 : Nat) = 0 := by
      have h3 := congrArg List.length hd
      rwa [List.length_replicate, List.length_nil] at h3
    exact absurd hl (by norm_num)
  have hlen : MAX_MESSAGE_LENGTH < byteLen longAscii := by
    rw [longAscii, byteLen_mk_replicate]
    have h1 : Char.utf8Size 'a' = 1 := by decide
    rw [h1]
    norm_num [MAX_MESSAGE_LENGTH]
  exact too_long_rejected_without_persisting okEnv ⟨[], []⟩ ⟨none, longAscii⟩
    "c1" "u1" 0 hne hlen

/-- C7 (counterexample): for the utterance " hi" (leading space, no
conversation id supplied), the created conversation's title is "hi", which
is not a prefix of the utterance (its unique two-character prefix is " h"):
the title is derived from the trimmed utterance, not the raw utterance. -/
theorem title_not_a_prefix_of_raw_utterance :
    (prepare_chat okEnv ⟨[], []⟩ ⟨none, " hi"⟩ "c1" "u1" 3).1.conversations.map
        Conversation.title = ["hi"] ∧
    (" hi" : String).data.take (charLen "hi") ≠ ("hi" : String).data := by
  constructor
  · rfl
  · decide

/-- C7 (amended): for every utterance non-empty after trimming and within
the byte-length limit, prepare persists exactly one user message; when no
conversation id was supplied and the generated id is absent from the store,
it creates exactly one conversation whose title is the at-most-60-character
prefix of the trimmed utterance, with an ellipsis appended exactly when the
trimmed utterance exceeds 60 characters. -/
theorem prepare_persists_one_message_and_conversation
    (env : DbEnv) (st : Store) (request : ChatRequest)
    (freshConvId freshMsgId : String) (now : Nat)
    (henvF : env.findConvOk = true) (henvC : env.saveConvOk = true)
    (henvM : env.saveMsgOk = true) (henvL : env.findMsgsOk = true)
    (hne : rustTrim request.message ≠ "")
    (hlen : byteLen request.message ≤ MAX_MESSAGE_LENGTH) :
    (prepare_chat env st request freshConvId freshMsgId now).1.messages =
      st.messages ++
        [⟨freshMsgId, request.conversation_id.getD freshConvId,
          MessageRole.user, request.message, now⟩] ∧
    (request.conversation_id = none →
      findConversation st freshConvId = none →
      (prepare_chat env st request freshConvId freshMsgId now).1.conversations =
        st.conversations ++
          [⟨freshConvId, deriveTitle request.message, now, now⟩]) ∧
    (charLen (rustTrim request.message) ≤ 60 →
      deriveTitle request.message = rustTrim request.message) ∧
    (60 < charLen (rustTrim request.message) →
      deriveTitle request.message =
        (⟨(rustTrim request.message).data.take 60⟩ : String) ++ "…") := by
  have hlt : ¬MAX_MESSAGE_LENGTH < byteLen request.message := not_lt.mpr hlen
  refine ⟨?_, ?_, ?_, ?_⟩
  · cases hfind : findConversation st (request.conversation_id.getD freshConvId) with
    | some c =>
      simp [prepare_chat, prepareAfterConv, hne, hlt, hfind, henvF, henvC,
        henvM, henvL, saveMessage, saveConversation]
    | none =>
      simp [prepare_chat, prepareAfterConv, hne, hlt, hfind, henvF, henvC,
        henvM, henvL, saveMessage, saveConversation]
  · intro hnone habs
    simp [prepare_chat, prepareAfterConv, hne, hlt, hnone, habs, henvF, henvC,
      henvM, henvL, saveMessage, saveConversation]
  · intro h
    simp [deriveTitle, not_lt.mpr h]
  · intro h
    simp [deriveTitle, h]

/-- Witness for the amended C7 at the utterance "Hello" with no supplied
conversation id. -/
theorem prepare_persists_witness :
    (prepare_chat okEnv ⟨[], []⟩ ⟨none, "Hello"⟩ "c1" "u1" 2).1.messages =
      [] ++
        [⟨"u1", (none : Option String).getD "c1",
          MessageRole.user, "Hello", 2⟩] ∧
    ((none : Option String) = none →
      findConversation ⟨[], []⟩ "c1" = none →
      (prepare_chat okEnv ⟨[], []⟩ ⟨none, "Hello"⟩ "c1" "u1" 2).1.conversations =
        [] ++ [⟨"c1", deriveTitle "Hello", 2, 2⟩]) ∧
    (charLen (rustTrim "Hello") ≤ 60 →
      deriveTitle "Hello" = rustTrim "Hello") ∧
    (60 < charLen (rustTrim "Hello") →
      deriveTitle "Hello" =
        (⟨(rustTrim "Hello").data.take 60⟩ : String) ++ "…") :=
  prepare_persists_one_message_and_conversation okEnv ⟨[], []⟩ ⟨none, "Hello"⟩
    "c1" "u1" 2 rfl rfl rfl rfl (by decide) (by decide)

/-- Witness for C8 at a concrete finalize call. -/
theorem recency_bump_witness :
    (save_assistant_message { okEnv with touchOk := false } ⟨[], []⟩ "c1"
        "Hello" "m1" 3).2 =
      Except.ok ⟨"m1", "c1", MessageRole.assistant, "Hello", 3⟩ ∧
    (⟨"m1", "c1", MessageRole.assistant, "Hello", 3⟩ : Message) ∈
      (save_assistant_message { okEnv with touchOk := false } ⟨[], []⟩ "c1"
        "Hello" "m1" 3).1.messages :=
  (recency_bump_failure_never_surfaces okEnv ⟨[], []⟩ ⟨none, "Hi"⟩
    (Except.ok "Yo") "c" "u" "a" "c1" "Hello" "m1" 3).2.2.2.2 rfl

end RustChat
